import Mathlib

/-!
Verification development for the pose angle tracking and rep-counting engine.

The numeric per-frame pipeline is embedded shallowly:
JavaScript numbers are modelled as rationals wherever the source only uses
field arithmetic, absolute values and comparisons (smoothers, comparators,
phase machines), and as reals where the source calls transcendental
functions (atan2, sin, cos, sqrt in the angle calculator and the reference
alignment transform).
-/

/-! ## Shared configuration: the joint table -/

/-- The eight configured joints, as in the angleJoints table shared by the
trackers. -/
inductive Joint
  | rightElbow
  | rightShoulder
  | leftShoulder
  | leftElbow
  | rightHip
  | rightKnee
  | leftHip
  | leftKnee
deriving DecidableEq, Repr

/-- Landmark index triple (A, B, C) for each joint, from the angleJoints
configuration table. -/
def angleJoints : Joint → Nat × Nat × Nat
  | .rightElbow => (16, 14, 12)
  | .rightShoulder => (14, 12, 24)
  | .leftShoulder => (23, 11, 13)
  | .leftElbow => (11, 13, 15)
  | .rightHip => (12, 24, 26)
  | .rightKnee => (24, 26, 28)
  | .leftHip => (11, 23, 25)
  | .leftKnee => (23, 25, 27)

/-- Iteration order of the joint table (Object.entries / Object.keys order of
the angleJoints literal). -/
def jointList : List Joint :=
  [.rightElbow, .rightShoulder, .leftShoulder, .leftElbow,
   .rightHip, .rightKnee, .leftHip, .leftKnee]

theorem mem_jointList (j : Joint) : j ∈ jointList := by
  cases j <;> simp [jointList]

/-! ## Pose comparator layer (rational arithmetic)

An AngleMap is a partial map from joint names to angle values; a missing
key of the JavaScript record is modelled as `none`. -/

/-- AngleMap: joint name to angle, keys may be absent. -/
def AngleMap : Type := Joint → Option ℚ

/-- angleDistance from the distance-based tracker: sum over the configured
joints of the absolute difference, a missing key on either side defaulting
to 0 (live ?? 0, ref ?? 0). -/
def angleDistance (liveAngles referenceAngles : AngleMap) : ℚ :=
  jointList.foldl
    (fun sum j => sum + |(liveAngles j).getD 0 - (referenceAngles j).getD 0|) 0

/-- isNearPose from PushupTracker: true only when every configured joint has
absolute difference at most the tolerance, with missing keys defaulting to 0
on both sides (the source returns false on the first joint whose difference
exceeds the tolerance). -/
def isNearPose (liveAngles targetAngles : AngleMap) (tolerance : ℚ) : Bool :=
  jointList.all fun j =>
    decide (|(liveAngles j).getD 0 - (targetAngles j).getD 0| ≤ tolerance)

/-! ## Temporal smoother layer -/

/-- One EMA update step, as written at the use sites:
alpha * raw + (1 - alpha) * old. -/
def emaStep (alpha old raw : ℚ) : ℚ := alpha * raw + (1 - alpha) * old

/-- The smoothing constant of the distance-based machine (alpha = 0.3). -/
def distAlpha : ℚ := 3 / 10

/-- Initial value of smoothedDistToStartRef / smoothedDistToEndRef: the refs
are created with useRef(0) and reset to 0 when a movement is saved. -/
def distSmootherInit : ℚ := 0

/-- Running the distance smoother of the distance-based machine over a raw
input sequence, starting from its initial state 0. -/
def distSmootherRun (raws : List ℚ) : ℚ :=
  raws.foldl (fun old raw => emaStep distAlpha old raw) distSmootherInit

/-- The LungeTracker smoothing constant (alpha = 0.65). -/
def lungeAlpha : ℚ := 13 / 20

/-- One update of a LungeTracker per-side angle smoother: the ref starts as
null and is seeded with the first raw observation; afterwards the EMA
recurrence applies. Returns the new smoothed value. -/
def lungeSmoothUpdate (state : Option ℚ) (raw : ℚ) : ℚ :=
  match state with
  | none => raw
  | some old => lungeAlpha * raw + (1 - lungeAlpha) * old

/-! ## Weighted match score (BalanceTracker / YogaPoseMatcher pipeline) -/

/-- Per-joint weights from the jointWeights table. -/
def jointWeights : Joint → ℚ
  | .rightElbow => 3 / 2
  | .leftElbow => 3 / 2
  | .rightKnee => 3 / 2
  | .leftKnee => 3 / 2
  | .rightShoulder => 1
  | .leftShoulder => 1
  | .rightHip => 1
  | .leftHip => 1

/-- Error smoothing factor of the score pipeline (0.8). -/
def smoothingFactor : ℚ := 4 / 5

/-- Accumulation of (totalError, totalWeight) over the joint table: a joint
contributes weight * |live - ref| and its weight exactly when the live map
has a key for it; the reference angle is recomputed from the saved landmarks
and is modelled as a total map. -/
def errorTotals (liveAngles : AngleMap) (refAngles : Joint → ℚ) : ℚ × ℚ :=
  jointList.foldl
    (fun acc j =>
      match liveAngles j with
      | none => acc
      | some liveA =>
          (acc.1 + |liveA - refAngles j| * jointWeights j,
           acc.2 + jointWeights j))
    (0, 0)

/-- avgError = totalError / totalWeight when totalWeight > 0, else 0. -/
def avgError (liveAngles : AngleMap) (refAngles : Joint → ℚ) : ℚ :=
  let t := errorTotals liveAngles refAngles
  if 0 < t.2 then t.1 / t.2 else 0

/-- newSmoothedError = smoothingFactor * smoothedError + (1 - smoothingFactor) * avg,
as written on the update line of the score pipeline. -/
def newSmoothedError (prev avg : ℚ) : ℚ :=
  smoothingFactor * prev + (1 - smoothingFactor) * avg

/-- The smoothedError value the per-frame callback reads: the onResults
closure is registered in a once-run effect (empty dependency array), so it
captures the mount-time useState(0) value of smoothedError on every frame;
the setSmoothedError writes are never seen by the closure. -/
def closureSmoothedError : ℚ := 0

/-- score = max(0, 100 - smoothedError * 5). -/
def matchScore (smoothedErr : ℚ) : ℚ := max 0 (100 - smoothedErr * 5)

/-- One frame of the score computation: blend the average weighted error
with the closure-captured smoothedError (the constant 0), then clamp the
linear score. -/
def scoreFrame (liveAngles : AngleMap) (refAngles : Joint → ℚ) : ℚ :=
  matchScore (newSmoothedError closureSmoothedError (avgError liveAngles refAngles))

/-! ## Phase state machines -/

/-- Phase of the distance-based machine. -/
inductive Phase
  | up
  | down
  | nonePhase
deriving DecidableEq, Repr

/-- Mutable state of the distance-based rep machine: committed phase,
pending candidate phase, the candidate-since timestamp (ms), and the
repetition counter. -/
structure MachState where
  phase : Phase
  pending : Phase
  timeEntered : ℤ
  repCount : Nat
deriving DecidableEq, Repr

/-- Stability window BUFFER_MS = 100 ms (Date.now() timestamps are integer
milliseconds). -/
def bufferMs : ℤ := 100

/-- Threshold on the smoothed distance to the start pose. -/
def thresholdStart : ℚ := 150

/-- Threshold on the smoothed distance to the end pose. -/
def thresholdEnd : ℚ := 150

/-- Candidate phase derivation of the distance-based machine: below the
start threshold the candidate is up; otherwise, below the end threshold the
candidate is down; otherwise no candidate. -/
def candidatePhase (smoothedStart smoothedEnd : ℚ) : Phase :=
  if smoothedStart < thresholdStart then .up
  else if smoothedEnd < thresholdEnd then .down
  else .nonePhase

/-- One frame of the hysteresis logic of the distance-based machine: if the
candidate changed, reset the candidate-since timestamp and store the
candidate without committing; otherwise commit the candidate once it has
been stable for at least bufferMs and differs from the committed phase,
incrementing the rep counter exactly on the down-to-up edge. -/
def phaseStep (s : MachState) (candidate : Phase) (now : ℤ) : MachState :=
  if candidate ≠ s.pending then
    { s with pending := candidate, timeEntered := now }
  else if bufferMs ≤ now - s.timeEntered ∧ candidate ≠ s.phase then
    { s with
      phase := candidate,
      repCount :=
        if s.phase = Phase.down ∧ candidate = Phase.up then s.repCount + 1
        else s.repCount }
  else s

/-- Running the distance-based machine over a timed candidate trace. -/
def phaseRun (s : MachState) (trace : List (Phase × ℤ)) : MachState :=
  trace.foldl (fun st frame => phaseStep st frame.1 frame.2) s

/-- Pose state of the start/end-pose machine in PushupTracker. -/
inductive PoseState
  | AT_START
  | AT_END
  | IN_BETWEEN
deriving DecidableEq, Repr

/-- State of the PushupTracker rep machine. -/
structure PushState where
  poseState : PoseState
  repCount : Nat
deriving DecidableEq, Repr

/-- State derivation of PushupTracker: near the minAngles target means
AT_START; otherwise near the maxAngles target means AT_END; otherwise
IN_BETWEEN (tolerance 10 at both tests). -/
def newPoseState (liveAngles minAngles maxAngles : AngleMap) : PoseState :=
  if isNearPose liveAngles minAngles 10 then .AT_START
  else if isNearPose liveAngles maxAngles 10 then .AT_END
  else .IN_BETWEEN

/-- One frame of the PushupTracker rep logic: any change of the derived
state is committed immediately, and the rep counter increments exactly on
the AT_START to AT_END edge. -/
def pushupStep (s : PushState) (newState : PoseState) : PushState :=
  if newState ≠ s.poseState then
    { poseState := newState,
      repCount :=
        if s.poseState = PoseState.AT_START ∧ newState = PoseState.AT_END then
          s.repCount + 1
        else s.repCount }
  else s

/-! ## Geometry layer (real arithmetic) -/

/-- A pose landmark: normalized 2D position with depth and visibility, as
delivered by the external estimator. The transform spreads all fields other
than x and y unchanged; those other fields are z and visibility here. -/
structure Landmark where
  x : ℝ
  y : ℝ
  z : ℝ
  visibility : ℝ

/-- Math.atan2(y, x), modelled as the argument of the complex number
x + y i (range (-pi, pi]). -/
noncomputable def atan2 (y x : ℝ) : ℝ := Complex.arg ⟨x, y⟩

/-- calculateAngle: unsigned angle at vertex B in degrees, computed from the
difference of the two bearings, folded into [0, 180]. -/
noncomputable def calculateAngle (A B C : Landmark) : ℝ :=
  let radians := atan2 (C.y - B.y) (C.x - B.x) - atan2 (A.y - B.y) (A.x - B.x)
  let angle := |radians| * (180 / Real.pi)
  if angle > 180 then 360 - angle else angle

/-- A landmark frame: ordered array whose entries may be absent (an
undefined array slot is modelled as none, and an out-of-range index also
reads as none, as in JavaScript). -/
abbrev LandmarkFrame : Type := List (Option Landmark)

/-- computePoseAngles: for each configured joint, store the angle of its
landmark triple exactly when all three indices are present in the frame,
and omit the key otherwise. -/
noncomputable def computePoseAngles (landmarks : LandmarkFrame) : Joint → Option ℝ :=
  fun j =>
    match landmarks.getD (angleJoints j).1 none,
          landmarks.getD (angleJoints j).2.1 none,
          landmarks.getD (angleJoints j).2.2 none with
    | some A, some B, some C => some (calculateAngle A B C)
    | _, _, _ => none

/-- Euclidean distance between two landmarks in the x-y plane. -/
noncomputable def distance (a b : Landmark) : ℝ :=
  Real.sqrt ((a.x - b.x) ^ 2 + (a.y - b.y) ^ 2)

/-- transformLandmarks: similarity transform mapping the saved anchor pair
onto the current anchor pair (translate to the saved midpoint, rotate by the
bearing difference, scale by the anchor distance ratio, translate to the
current midpoint), applied to every saved landmark; only x and y are
rewritten, the rest of each landmark is spread unchanged. -/
noncomputable def transformLandmarks (savedLandmarks : List Landmark)
    (savedLeft savedRight currentLeft currentRight : Landmark) : List Landmark :=
  let savedMidX := (savedLeft.x + savedRight.x) / 2
  let savedMidY := (savedLeft.y + savedRight.y) / 2
  let currentMidX := (currentLeft.x + currentRight.x) / 2
  let currentMidY := (currentLeft.y + currentRight.y) / 2
  let savedShoulderDist := distance savedLeft savedRight
  let currentShoulderDist := distance currentLeft currentRight
  let scale := currentShoulderDist / savedShoulderDist
  let savedAngle := atan2 (savedRight.y - savedLeft.y) (savedRight.x - savedLeft.x)
  let currentAngle := atan2 (currentRight.y - currentLeft.y) (currentRight.x - currentLeft.x)
  let rotation := currentAngle - savedAngle
  savedLandmarks.map fun landmark =>
    let dx := landmark.x - savedMidX
    let dy := landmark.y - savedMidY
    let rotatedX := dx * Real.cos rotation - dy * Real.sin rotation
    let rotatedY := dx * Real.sin rotation + dy * Real.cos rotation
    { landmark with
      x := rotatedX * scale + currentMidX,
      y := rotatedY * scale + currentMidY }

/-! ## Claim C1: stability-gated commits of the phase state machine -/

/-- C1: a candidate phase is committed only if the same candidate has been
pending continuously for at least the 100 ms stability window and differs
from the committed phase; a changed candidate resets the candidate-since
timestamp and commits nothing that frame; and the concrete 50 ms excursion
(candidate up at t=1000 and t=1050, reverting to down at t=1060) commits
nothing and counts no rep. -/
theorem phaseStep_commit_iff_stable (s : MachState) (c : Phase) (now : ℤ) :
    ((c ≠ s.pending →
        phaseStep s c now = { s with pending := c, timeEntered := now }) ∧
     ((phaseStep s c now).phase ≠ s.phase ↔
        c = s.pending ∧ bufferMs ≤ now - s.timeEntered ∧ c ≠ s.phase) ∧
     ((phaseStep s c now).phase ≠ s.phase → (phaseStep s c now).phase = c)) ∧
    phaseRun { phase := .down, pending := .down, timeEntered := 0, repCount := 0 }
        [(.up, 1000), (.up, 1050), (.down, 1060), (.down, 2000)] =
      { phase := .down, pending := .down, timeEntered := 1060, repCount := 0 } := by
  refine ⟨⟨?_, ?_, ?_⟩, by decide⟩
  · intro hne
    simp [phaseStep, hne]
  · by_cases hpend : c = s.pending
    · subst hpend
      by_cases hc1 : bufferMs ≤ now - s.timeEntered
      · by_cases hc2 : s.pending = s.phase
        · simp [phaseStep, hc1, hc2]
        · simp [phaseStep, hc1, hc2]
      · simp [phaseStep, hc1]
    · simp [phaseStep, hpend]
  · intro hch
    by_cases hpend : c = s.pending
    · subst hpend
      by_cases hc1 : bufferMs ≤ now - s.timeEntered
      · by_cases hc2 : s.pending = s.phase
        · simp [phaseStep, hc1, hc2] at hch
        · simp [phaseStep, hc1, hc2]
      · simp [phaseStep, hc1] at hch
    · simp [phaseStep, hpend] at hch

/-- C1 witness: a freshly changed candidate only resets the pending phase
and timestamp. -/
theorem phaseStep_commit_iff_stable_witness :
    phaseStep { phase := .down, pending := .down, timeEntered := 0, repCount := 0 }
        Phase.up 50 =
      { phase := .down, pending := .up, timeEntered := 50, repCount := 0 } :=
  (phaseStep_commit_iff_stable
      { phase := .down, pending := .down, timeEntered := 0, repCount := 0 }
      Phase.up 50).1.1 (by decide)

/-! ## Claim C2: repetition increments exactly on the completion edge -/

/-- C2: on every committed transition, the rep counter increments by
exactly 1 iff the transition is the completion edge (down to up in the
distance-based machine, AT_START to AT_END in the pushup machine); every
other committed transition changes only the phase; and no frame without a
committed transition changes the counter. -/
theorem repIncrement_iff_completion_edge (s : MachState) (c : Phase) (now : ℤ)
    (t : PushState) (n : PoseState) :
    ((phaseStep s c now).phase ≠ s.phase →
       ((phaseStep s c now).repCount = s.repCount + 1 ↔
          s.phase = Phase.down ∧ (phaseStep s c now).phase = Phase.up) ∧
       (¬(s.phase = Phase.down ∧ (phaseStep s c now).phase = Phase.up) →
          phaseStep s c now = { s with phase := (phaseStep s c now).phase })) ∧
    ((phaseStep s c now).phase = s.phase →
       (phaseStep s c now).repCount = s.repCount) ∧
    ((pushupStep t n).poseState ≠ t.poseState →
       ((pushupStep t n).repCount = t.repCount + 1 ↔
          t.poseState = PoseState.AT_START ∧
            (pushupStep t n).poseState = PoseState.AT_END) ∧
       (¬(t.poseState = PoseState.AT_START ∧
            (pushupStep t n).poseState = PoseState.AT_END) →
          pushupStep t n = { poseState := n, repCount := t.repCount })) ∧
    ((pushupStep t n).poseState = t.poseState →
       (pushupStep t n).repCount = t.repCount) := by
  refine ⟨?_, ?_, ?_, ?_⟩
  · intro hch
    by_cases hpend : c = s.pending
    · subst hpend
      by_cases hc1 : bufferMs ≤ now - s.timeEntered
      · by_cases hc2 : s.pending = s.phase
        · simp [phaseStep, hc1, hc2] at hch
        · by_cases hedge : s.phase = Phase.down ∧ s.pending = Phase.up
          · simp [phaseStep, hc1, hc2, hedge]
          · simp [phaseStep, hc1, hc2, hedge]
      · simp [phaseStep, hc1] at hch
    · simp [phaseStep, hpend] at hch
  · intro hsame
    by_cases hpend : c = s.pending
    · subst hpend
      by_cases hc1 : bufferMs ≤ now - s.timeEntered
      · by_cases hc2 : s.pending = s.phase
        · simp [phaseStep, hc1, hc2]
        · simp [phaseStep, hc1, hc2] at hsame
      · simp [phaseStep, hc1]
    · simp [phaseStep, hpend]
  · intro hch
    by_cases hne : n = t.poseState
    · simp [pushupStep, hne] at hch
    · by_cases hedge : t.poseState = PoseState.AT_START ∧ n = PoseState.AT_END
      · simp [pushupStep, hne, hedge]
      · simp [pushupStep, hne, hedge]
  · intro hsame
    by_cases hne : n = t.poseState
    · simp [pushupStep, hne]
    · simp [pushupStep, hne] at hsame

/-- C2 witness: a stable up candidate commits from the down phase and counts
exactly one rep. -/
theorem repIncrement_iff_completion_edge_witness :
    (phaseStep { phase := .down, pending := .up, timeEntered := 0, repCount := 3 }
        Phase.up 200).repCount = 3 + 1 :=
  ((repIncrement_iff_completion_edge
      { phase := .down, pending := .up, timeEntered := 0, repCount := 3 }
      Phase.up 200 { poseState := .AT_START, repCount := 0 } .AT_END).1
    (by decide)).1.mpr (by decide)

/-! ## Claim C3: smoother seeding -/

/-- C3 counterexample: the distance smoother of the distance-based machine
is pre-initialized to 0, so after a single observation of 100 the smoothed
value is 30, not 100 as the claim requires. -/
theorem distSmoother_first_observation_not_seed :
    distSmootherRun [100] ≠ 100 := by
  norm_num [distSmootherRun, distSmootherInit, emaStep, distAlpha]

/-- C3 amended: every smoother satisfies the EMA recurrence, the
LungeTracker per-side smoothers seed their state from the first observation,
but the distance smoothers of the distance-based machine start from the
pre-initialized state 0, so a single observation v yields 0.3 * v. -/
theorem smoother_recurrence_and_seeding (v old raw : ℚ) :
    lungeSmoothUpdate none v = v ∧
    lungeSmoothUpdate (some old) raw = lungeAlpha * raw + (1 - lungeAlpha) * old ∧
    emaStep distAlpha old raw = distAlpha * raw + (1 - distAlpha) * old ∧
    distSmootherRun [v] = distAlpha * v := by
  refine ⟨rfl, rfl, rfl, ?_⟩
  show emaStep distAlpha distSmootherInit v = distAlpha * v
  simp [emaStep, distSmootherInit]

/-! ## Claim C4: conjunctive near-match comparator -/

/-- C4: isNearPose is conjunctive over the configured joints with missing
keys defaulting to 0 on both sides: equal maps pass at any non-negative
tolerance, and any single joint whose difference exceeds the tolerance fails
the whole pose (in particular when all other joints match exactly). -/
theorem isNearPose_conjunctive (live target : AngleMap) (tol : ℚ) :
    (0 ≤ tol → (∀ j, live j = target j) → isNearPose live target tol = true) ∧
    (∀ j0 : Joint, tol < |(live j0).getD 0 - (target j0).getD 0| →
       isNearPose live target tol = false) := by
  constructor
  · intro htol heq
    simp only [isNearPose, List.all_eq_true]
    intro j _hj
    rw [heq j]
    simpa using htol
  · intro j0 hgt
    simp only [isNearPose]
    rw [List.all_eq_false]
    exact ⟨j0, mem_jointList j0, by simpa using not_le.mpr hgt⟩

/-- C4 witness: two equal angle maps are near at tolerance 0. -/
theorem isNearPose_conjunctive_witness :
    isNearPose (fun _ => some 90) (fun _ => some 90) 0 = true :=
  (isNearPose_conjunctive (fun _ => some 90) (fun _ => some 90) 0).1
    le_rfl (fun _ => rfl)

/-! ## Claim C5: weighted match score -/

/-- C5: the score equals max(0, 100 - smoothedError * 5); an exact match on
every configured joint scores 100 (the closure-captured smoothedError is
always its mount-time value 0, so no history of mismatch can lower it); the
score is antitone in the smoothed error and clamped at 0, never negative;
and avgError is 0 when no joints contributed. -/
theorem matchScore_formula_and_bounds (live : AngleMap) (refAngles : Joint → ℚ)
    (e1 e2 : ℚ) :
    scoreFrame live refAngles =
      max 0 (100 - newSmoothedError closureSmoothedError (avgError live refAngles) * 5) ∧
    ((∀ j, live j = some (refAngles j)) → scoreFrame live refAngles = 100) ∧
    (e1 ≤ e2 → matchScore e2 ≤ matchScore e1) ∧
    0 ≤ matchScore e1 ∧
    ((∀ j, live j = none) → avgError live refAngles = 0) := by
  refine ⟨rfl, ?_, ?_, le_max_left 0 _, ?_⟩
  · intro heq
    simp [scoreFrame, matchScore, newSmoothedError, closureSmoothedError,
      avgError, errorTotals, jointList, jointWeights, smoothingFactor, heq]
  · intro hle
    exact max_le_max le_rfl (by linarith)
  · intro hnone
    simp [avgError, errorTotals, jointList, hnone]

/-- C5 witness: an exact match scores 100. -/
theorem matchScore_formula_and_bounds_witness :
    scoreFrame (fun _ => some 90) (fun _ => 90) = 100 :=
  (matchScore_formula_and_bounds (fun _ => some 90) (fun _ => 90) 0 1).2.1
    (fun _ => rfl)

/-! ## Claim C9: start proximity wins over end proximity -/

/-- C9: when the live pose is close to both targets in the same frame, the
start side wins: both smoothed distances below their thresholds derive
candidate up, and passing both near-pose tests derives AT_START. -/
theorem start_proximity_wins (sStart sEnd : ℚ) (live minAngles maxAngles : AngleMap) :
    (sStart < thresholdStart → sEnd < thresholdEnd →
       candidatePhase sStart sEnd = Phase.up) ∧
    (isNearPose live minAngles 10 = true → isNearPose live maxAngles 10 = true →
       newPoseState live minAngles maxAngles = PoseState.AT_START) := by
  constructor
  · intro h1 _h2
    simp [candidatePhase, h1]
  · intro h1 _h2
    simp [newPoseState, h1]

/-- C9 witness: both proximity tests passing at a concrete input derives the
start side in both machines. -/
theorem start_proximity_wins_witness :
    candidatePhase 100 100 = Phase.up ∧
    newPoseState (fun _ => some 90) (fun _ => some 90) (fun _ => some 95) =
      PoseState.AT_START := by
  constructor
  · exact (start_proximity_wins 100 100 (fun _ => some 90) (fun _ => some 90)
      (fun _ => some 95)).1 (by norm_num [thresholdStart]) (by norm_num [thresholdEnd])
  · exact (start_proximity_wins 100 100 (fun _ => some 90) (fun _ => some 90)
      (fun _ => some 95)).2 (by norm_num [isNearPose, jointList])
      (by norm_num [isNearPose, jointList])

/-! ## Claim C7: angle calculator symmetry and range -/

/-- C7: calculateAngle is symmetric in its outer points and always returns
a value in [0, 180] degrees (proved for all inputs, in particular for
distinct, non-degenerate points). -/
theorem calculateAngle_symm_and_range (A B C : Landmark) :
    calculateAngle A B C = calculateAngle C B A ∧
    0 ≤ calculateAngle A B C ∧ calculateAngle A B C ≤ 180 := by
  have hpi := Real.pi_pos
  have h1 : |atan2 (C.y - B.y) (C.x - B.x)| ≤ Real.pi := Complex.abs_arg_le_pi _
  have h2 : |atan2 (A.y - B.y) (A.x - B.x)| ≤ Real.pi := Complex.abs_arg_le_pi _
  have hraw :
      |atan2 (C.y - B.y) (C.x - B.x) - atan2 (A.y - B.y) (A.x - B.x)| ≤
        2 * Real.pi :=
    (abs_sub _ _).trans (by linarith)
  have hx : (0:ℝ) ≤
      |atan2 (C.y - B.y) (C.x - B.x) - atan2 (A.y - B.y) (A.x - B.x)| *
        (180 / Real.pi) := by positivity
  have hx2 :
      |atan2 (C.y - B.y) (C.x - B.x) - atan2 (A.y - B.y) (A.x - B.x)| *
        (180 / Real.pi) ≤ 360 := by
    have hk : (0:ℝ) ≤ 180 / Real.pi := by positivity
    have := mul_le_mul_of_nonneg_right hraw hk
    have heq : 2 * Real.pi * (180 / Real.pi) = 360 := by
      field_simp
      ring
    linarith [this, heq.le]
  refine ⟨?_, ?_⟩
  · simp only [calculateAngle]
    rw [abs_sub_comm]
  · simp only [calculateAngle]
    split_ifs with h
    · constructor <;> linarith
    · constructor <;> linarith

/-! ## Claim C6: identity alignment transform -/

/-- C6: when the current anchor pair equals the saved anchor pair and the
anchors are non-degenerate (the two saved shoulders do not coincide), the
alignment transform is the identity: the rotation is a difference of equal
bearings, the scale is a ratio of equal distances, the midpoints coincide,
and every landmark maps to itself. -/
theorem transformLandmarks_identity (saved : List Landmark) (sl sr : Landmark)
    (h : sl.x ≠ sr.x ∨ sl.y ≠ sr.y) :
    transformLandmarks saved sl sr sl sr = saved := by
  have hd : distance sl sr ≠ 0 := by
    unfold distance
    rw [Real.sqrt_ne_zero']
    rcases h with h | h
    · have hne : sl.x - sr.x ≠ 0 := sub_ne_zero.mpr h
      have hpos : 0 < (sl.x - sr.x) ^ 2 :=
        lt_of_le_of_ne (sq_nonneg _) (Ne.symm (pow_ne_zero 2 hne))
      nlinarith [sq_nonneg (sl.y - sr.y)]
    · have hne : sl.y - sr.y ≠ 0 := sub_ne_zero.mpr h
      have hpos : 0 < (sl.y - sr.y) ^ 2 :=
        lt_of_le_of_ne (sq_nonneg _) (Ne.symm (pow_ne_zero 2 hne))
      nlinarith [sq_nonneg (sl.x - sr.x)]
  simp only [transformLandmarks, sub_self, div_self hd, Real.cos_zero,
    Real.sin_zero, mul_one, mul_zero, sub_zero, zero_add, add_zero,
    sub_add_cancel]
  exact List.map_id saved

/-- C6 witness: the transform is the identity at a concrete pose whose
current anchors equal its saved anchors. -/
theorem transformLandmarks_identity_witness :
    transformLandmarks [⟨(1:ℝ)/2, (1:ℝ)/3, (2:ℝ), (1:ℝ)⟩]
        ⟨0, 0, 0, 1⟩ ⟨1, 0, 0, 1⟩ ⟨0, 0, 0, 1⟩ ⟨1, 0, 0, 1⟩ =
      [⟨(1:ℝ)/2, (1:ℝ)/3, (2:ℝ), (1:ℝ)⟩] :=
  transformLandmarks_identity [⟨(1:ℝ)/2, (1:ℝ)/3, (2:ℝ), (1:ℝ)⟩]
    ⟨0, 0, 0, 1⟩ ⟨1, 0, 0, 1⟩ (Or.inl (by norm_num))

/-! ## Claim C8: joint angle extractor presence semantics -/

/-- C8: computePoseAngles is total and stores an angle for a joint exactly
when all three referenced landmark indices are present in the frame (the
stored value being the calculated angle of the triple), and a frame with no
landmarks yields the empty map. -/
theorem computePoseAngles_presence (lms : LandmarkFrame) (j : Joint) :
    ((computePoseAngles lms j).isSome ↔
       ((lms.getD (angleJoints j).1 none).isSome ∧
        (lms.getD (angleJoints j).2.1 none).isSome ∧
        (lms.getD (angleJoints j).2.2 none).isSome)) ∧
    (∀ A B C : Landmark,
       lms.getD (angleJoints j).1 none = some A →
       lms.getD (angleJoints j).2.1 none = some B →
       lms.getD (angleJoints j).2.2 none = some C →
       computePoseAngles lms j = some (calculateAngle A B C)) ∧
    computePoseAngles ([] : LandmarkFrame) j = none := by
  refine ⟨?_, ?_, ?_⟩
  · unfold computePoseAngles
    rcases lms.getD (angleJoints j).1 none with _ | A <;>
      rcases lms.getD (angleJoints j).2.1 none with _ | B <;>
        rcases lms.getD (angleJoints j).2.2 none with _ | C <;> simp
  · intro A B C h1 h2 h3
    unfold computePoseAngles
    rw [h1, h2, h3]
  · simp [computePoseAngles, List.getD_nil]

/-- Concrete landmark at (1, 0). -/
noncomputable def lmA : Landmark := ⟨1, 0, 0, 1⟩

/-- Concrete landmark at the origin. -/
noncomputable def lmB : Landmark := ⟨0, 0, 0, 1⟩

/-- Concrete landmark at (0, 1). -/
noncomputable def lmC : Landmark := ⟨0, 1, 0, 1⟩

/-- A 17-entry frame carrying only the right-elbow triple (indices 16, 14,
12). -/
noncomputable def demoFrame : LandmarkFrame :=
  [none, none, none, none, none, none, none, none, none, none, none, none,
   some lmC, none, some lmB, none, some lmA]

/-- C8 witness: the right elbow angle is stored for a frame carrying exactly
its three landmarks. -/
theorem computePoseAngles_presence_witness :
    computePoseAngles demoFrame Joint.rightElbow = some (calculateAngle lmA lmB lmC) :=
  (computePoseAngles_presence demoFrame .rightElbow).2.1 lmA lmB lmC rfl rfl rfl

/-! ## Claim C10: the transform rewrites only x and y -/

/-- C10: transformLandmarks returns a list of the same length and order, and
every field of each output landmark other than x and y (z and visibility in
this model) equals the corresponding field of the input landmark. -/
theorem transformLandmarks_preserves_other_fields (saved : List Landmark)
    (sl sr cl cr : Landmark) :
    (transformLandmarks saved sl sr cl cr).length = saved.length ∧
    (transformLandmarks saved sl sr cl cr).map (fun lm => (lm.z, lm.visibility)) =
      saved.map (fun lm => (lm.z, lm.visibility)) := by
  constructor
  · simp [transformLandmarks]
  · simp only [transformLandmarks, List.map_map]
    rfl
